import Mathlib

/-!
Shallow embedding of `wifi.py` (Wi-Fi Network Pro Dashboard), a Flask
application that monitors a fixed set of Wi-Fi targets with a background
scheduler loop, keeps a bounded per-target history, and serves status plus
on-demand speedtest results over JSON.

Modelling conventions:
* Python floats are modelled as `ℚ` (the claims are order/equality
  properties at decimal values, which `ℚ` represents exactly).
* Fallible external calls (`subprocess.run`, `speedtest`, SSID shell-outs)
  are modelled by explicit outcome types: the embedding of a function is a
  pure function of the outcome of its external calls.
* Python strings are Lean `String`s; the two latency regexes, the SSID
  regexes, and Python `float(...)` on the matched groups are embedded
  concretely as executable functions on character lists.
-/

namespace Wifi

/-- Configured target set of `wifi.py` (the `WIFI_TARGETS` dict, line 15):
an insertion-ordered name → address map, modelled as an association list. -/
def WIFI_TARGETS : List (String × String) :=
  [("Shakti_2.4GHz", "192.168.1.1"),
   ("SHAKTI_5GHz", "192.168.1.2"),
   ("Air_Shakti_564_5GHz", "192.168.1.3"),
   ("Air_Shakti_564_2.4GHz", "192.168.1.4"),
   ("Air_Shakti_501_2.4GHz", "192.168.1.5"),
   ("Air_Shakti_501_5GHz", "192.168.1.6"),
   ("Lawful_Connect_2.4GHz", "192.168.1.7"),
   ("Lawfull_Conect_5GHz", "192.168.1.8"),
   ("Airtel_Zerotouch", "192.168.1.9"),
   ("Airtel_Zerotouch_5G", "192.168.1.10")]

/-- Scheduler interval in seconds (`CHECK_INTERVAL = 8`, line 28). -/
def CHECK_INTERVAL : ℕ := 8

/-- History buffer capacity (`HISTORY_LENGTH = 300`, line 29): each target's
history is a `deque(maxlen=HISTORY_LENGTH)`. -/
def HISTORY_LENGTH : ℕ := 300

/-- Python `\s` whitespace class restricted to ASCII (space, tab, newline,
carriage return, vertical tab, form feed). -/
def isPySpace (c : Char) : Bool :=
  c == ' ' || c == '\t' || c == '\n' || c == '\r' || c == '\x0b' || c == '\x0c'

/-- Character class `[\d\.]` of the `_ping_time_re` regex. -/
def isDigitDot (c : Char) : Bool :=
  c.isDigit || c == '.'

/-- Match a literal pattern case-insensitively (re.IGNORECASE over ASCII)
at the head of the input; on success return the remaining input. -/
def stripCI : List Char → List Char → Option (List Char)
  | [], l => some l
  | _ :: _, [] => none
  | p :: ps, c :: cs => if c.toLower = p.toLower then stripCI ps cs else none

/-- Match a literal pattern case-sensitively at the head of the input; on
success return the remaining input. -/
def stripCS : List Char → List Char → Option (List Char)
  | [], l => some l
  | _ :: _, [] => none
  | p :: ps, c :: cs => if c = p then stripCS ps cs else none

/-- Leftmost-match search: try the anchored matcher at every suffix, in
order, returning the first captured group — the semantics of `re.search`. -/
def searchFirst (f : List Char → Option String) : List Char → Option String
  | [] => f []
  | c :: cs =>
    match f (c :: cs) with
    | some g => some g
    | none => searchFirst f cs

/-- Anchored matcher for `_ping_time_re = time[=<]\s*([\d\.]+)\s*ms`
(IGNORECASE, line 39), returning capture group 1. The character classes
`[\d\.]`, `\s` and the literal `ms` are pairwise disjoint, so greedy
maximal-munch matching is exact. -/
def pingMatchAt (l : List Char) : Option String :=
  match stripCI "time".data l with
  | none => none
  | some l1 =>
    match l1 with
    | [] => none
    | c :: l2 =>
      if c = '=' ∨ c = '<' then
        let l3 := l2.dropWhile isPySpace
        let digs := l3.takeWhile isDigitDot
        if digs.isEmpty then none
        else
          match stripCI "ms".data ((l3.dropWhile isDigitDot).dropWhile isPySpace) with
          | some _ => some (String.mk digs)
          | none => none
      else none

/-- Anchored matcher for `_windows_avg_re = Average = (\d+)ms`
(IGNORECASE, line 40), returning capture group 1. -/
def avgMatchAt (l : List Char) : Option String :=
  match stripCI "average".data l with
  | none => none
  | some l1 =>
    match l1 with
    | ' ' :: '=' :: ' ' :: l2 =>
      let digs := l2.takeWhile Char.isDigit
      if digs.isEmpty then none
      else
        match stripCI "ms".data (l2.dropWhile Char.isDigit) with
        | some _ => some (String.mk digs)
        | none => none
    | _ => none

/-- Embeds `_ping_time_re.search(out)` followed by `.group(1)`. -/
def searchPing (s : String) : Option String :=
  searchFirst pingMatchAt s.data

/-- Embeds `_windows_avg_re.search(out)` followed by `.group(1)`. -/
def searchAvg (s : String) : Option String :=
  searchFirst avgMatchAt s.data

/-- Numeric value of a digit string, most significant digit first. -/
def digitsVal (l : List Char) : ℕ :=
  l.foldl (fun a c => 10 * a + (c.toNat - 48)) 0

/-- Python `float(s)` restricted to strings over `[\d\.]` (all that the two
regex groups can produce): defined iff the string has at least one digit
and at most one dot, and then denotes integer-part plus fractional-part. -/
def pyFloat (s : String) : Option ℚ :=
  let l := s.data
  if l.any Char.isDigit = true ∧ l.all isDigitDot = true ∧
      l.countP (fun c => c == '.') ≤ 1 then
    let frac := (l.dropWhile Char.isDigit).drop 1
    some ((digitsVal (l.takeWhile Char.isDigit) : ℚ) +
      (digitsVal frac : ℚ) / (10 : ℚ) ^ frac.length)
  else none

/-- Outcome of the `subprocess.run(cmd, ...)` call inside `ping_latency`:
either the call raises (binary missing, `TimeoutExpired`, any other
exception) or it completes with an exit code, stdout and stderr. -/
inductive RunResult where
  | raises : RunResult
  | completed (returncode : ℤ) (stdout stderr : String) : RunResult
deriving DecidableEq

/-- Embedding of `ping_latency` (lines 42–58) as a function of the
subprocess outcome: on exception return `(False, None)`; on exit code 0
search `_ping_time_re` then (Python `or`) `_windows_avg_re` on
`stdout + stderr`, convert the group with `float` guarding against
`ValueError`; on nonzero exit return `(False, None)`. -/
def ping_latency (r : RunResult) : Bool × Option ℚ :=
  match r with
  | .raises => (false, none)
  | .completed rc so se =>
    let out := so ++ se
    if rc = 0 then
      match (searchPing out).or (searchAvg out) with
      | some g =>
        match pyFloat g with
        | some v => (true, some v)
        | none => (true, none)
      | none => (true, none)
    else (false, none)

/-- Embedding of `compute_health` (lines 93–98): a pure function of the
download figure returning the health label and its colour hint. -/
def compute_health (download_mbps : Option ℚ) : String × String :=
  match download_mbps with
  | none => ("Unknown", "text-gray-400")
  | some d =>
    if d ≥ 100 then ("Excellent", "text-green-400")
    else if d ≥ 50 then ("Good", "text-yellow-400")
    else if d ≥ 10 then ("Fair", "text-orange-400")
    else ("Weak", "text-red-500")

/-- The lowercased `platform.system()` value, as branched on by
`get_current_ssid`: `"windows"`, `"linux"`, `"darwin"`, or anything else. -/
inductive OsKind where
  | windows | linux | darwin | other
deriving DecidableEq

/-- Outcome of a `subprocess.check_output` shell-out: the call raises
(missing binary, nonzero exit, unsupported platform API, any exception) or
returns the tool's text output. -/
inductive CallResult where
  | raises : CallResult
  | output (s : String) : CallResult
deriving DecidableEq

/-- Python `str.strip()`: drop leading and trailing whitespace. -/
def pyStrip (s : String) : String :=
  String.mk (((s.data.dropWhile isPySpace).reverse.dropWhile isPySpace).reverse)

/-- Anchored (at line start) matcher for one line of netsh output against
the MULTILINE regex `^\s*SSID\s*:\s*(.+)$` (line 66), returning capture
group 1. Any character after the colon satisfies `.`, so a match needs the
post-colon remainder nonempty; greedy `\s*` then leaves the group as the
remainder without its leading whitespace, except that an all-whitespace
remainder leaves exactly the last character as the group. -/
def windowsLineMatch (l : List Char) : Option String :=
  match stripCS "SSID".data (l.dropWhile isPySpace) with
  | none => none
  | some l2 =>
    match l2.dropWhile isPySpace with
    | ':' :: rest =>
      if rest.isEmpty then none
      else
        let g := rest.dropWhile isPySpace
        if g.isEmpty then some (String.mk (rest.drop (rest.length - 1)))
        else some (String.mk g)
    | _ => none

/-- Split a character list at newline characters (the lines that `^`/`$`
delimit under re.MULTILINE). -/
def splitLines : List Char → List (List Char)
  | [] => [[]]
  | c :: cs =>
    if c = '\n' then [] :: splitLines cs
    else
      match splitLines cs with
      | l :: ls => (c :: l) :: ls
      | [] => [[c]]

/-- First line (leftmost multiline match) whose content matches the
windows SSID pattern. -/
def firstLineMatch : List (List Char) → Option String
  | [] => none
  | l :: ls =>
    match windowsLineMatch l with
    | some g => some g
    | none => firstLineMatch ls

/-- Embeds `re.search(r"^\s*SSID\s*:\s*(.+)$", out, re.MULTILINE)` followed
by `.group(1)`: since the pattern is `^`-anchored, the leftmost match is
the first matching line. -/
def windowsSsidSearch (out : String) : Option String :=
  firstLineMatch (splitLines out.data)

/-- Anchored matcher for the macOS airport pattern ` SSID: (.+)` (line 75):
the literal ` SSID: `, then a nonempty run of non-newline characters as
capture group 1. -/
def darwinMatchAt (l : List Char) : Option String :=
  match stripCS " SSID: ".data l with
  | none => none
  | some rest =>
    let g := rest.takeWhile (fun c => c ≠ '\n')
    if g.isEmpty then none else some (String.mk g)

/-- Embeds `re.search(r" SSID: (.+)", out)` followed by `.group(1)`. -/
def darwinSsidSearch (out : String) : Option String :=
  searchFirst darwinMatchAt out.data

/-- Embedding of `get_current_ssid` (lines 61–79) as a function of the
platform and of the OS shell-out's outcome. Any raised exception is caught
by the enclosing `try`/`except` and falls through to `return "Unknown"`;
on a platform other than windows/linux/darwin no call is made at all and
the function likewise returns `"Unknown"` (the outcome argument is then
irrelevant). -/
def get_current_ssid (os : OsKind) (call : CallResult) : String :=
  match call with
  | .raises => "Unknown"
  | .output out =>
    match os with
    | .windows =>
      match windowsSsidSearch out with
      | some g => pyStrip g
      | none => "Unknown"
    | .linux => pyStrip out
    | .darwin =>
      match darwinSsidSearch out with
      | some g => pyStrip g
      | none => "Unknown"
    | .other => "Unknown"

/-- Outcome of the external `speedtest.Speedtest()` routine inside
`run_speedtest`: either some stage raises, or the whole
discovery/download/upload/ping sequence succeeds with raw figures
(download and upload in bits per second, ping in milliseconds). -/
inductive SpeedtestOutcome where
  | fails : SpeedtestOutcome
  | succeeds (download upload ping : ℚ) : SpeedtestOutcome

/-- Python `round(x)` to an integer: round half to even. -/
def pyRound (x : ℚ) : ℤ :=
  let f := ⌊x⌋
  if x - f < 1 / 2 then f
  else if 1 / 2 < x - f then f + 1
  else if f % 2 = 0 then f else f + 1

/-- Python `round(x, nd)`: round half to even at `nd` decimal places. -/
def roundTo (nd : ℕ) (x : ℚ) : ℚ :=
  (pyRound (x * 10 ^ nd) : ℚ) / 10 ^ nd

/-- Embedding of `run_speedtest` (lines 81–91): on success, download and
upload are converted to Mbps and rounded to 2 decimals and ping to 1
decimal; on any exception the handler returns `(None, None, None)`. -/
def run_speedtest (o : SpeedtestOutcome) : Option ℚ × Option ℚ × Option ℚ :=
  match o with
  | .fails => (none, none, none)
  | .succeeds dl ul ping =>
    (some (roundTo 2 (dl / 1000000)), some (roundTo 2 (ul / 1000000)),
     some (roundTo 1 ping))

/-- The JSON object built by the `/api/speedtest` handler (lines 248–256). -/
structure SpeedtestPayload where
  ssid : String
  download_mbps : Option ℚ
  upload_mbps : Option ℚ
  ping_ms : Option ℚ
  health : String
  health_color : String
  time : String
deriving DecidableEq

/-- Embedding of the `/api/speedtest` handler `api_speedtest`
(lines 243–256) as a function of the platform, the SSID shell-out outcome,
the speedtest outcome and the current timestamp string: it always returns
a payload (every fallible step recovers internally). -/
def api_speedtest (os : OsKind) (call : CallResult) (o : SpeedtestOutcome)
    (now : String) : SpeedtestPayload :=
  let ssid := get_current_ssid os call
  let r := run_speedtest o
  let hc := compute_health r.1
  { ssid := ssid, download_mbps := r.1, upload_mbps := r.2.1,
    ping_ms := r.2.2, health := hc.1, health_color := hc.2, time := now }

/-- One per-target status record of `status_store` (line 34): the dict
`{"ip": ..., "status": ..., "last": ..., "latency": ...}`. -/
structure StatusRecord where
  ip : String
  status : String
  last : Option String
  latency : Option ℚ
deriving DecidableEq

/-- One history sample, the tuple `(ts, 1 if ok else 0, lat)` appended at
line 108. -/
abbrev Sample := String × ℕ × Option ℚ

/-- The module-level mutable state of `wifi.py`: `status_store` (line 34,
a dict keyed by target name, modelled as a partial map), `history`
(line 35, one bounded deque per target, totalised to `[]` off the target
set, which the loop never touches) and `last_status` (line 36, totalised
to `"Unknown"` likewise). -/
structure SysState where
  status_store : String → Option StatusRecord
  history : String → List Sample
  last_status : String → String

/-- The startup state built at lines 34–36: every configured target maps
to `{"ip": ip, "status": "Unknown", "last": None, "latency": None}`, an
empty history deque and `last_status = "Unknown"`. -/
def initState : SysState where
  status_store n := (WIFI_TARGETS.lookup n).map fun i =>
    { ip := i, status := "Unknown", last := none, latency := none }
  history _ := []
  last_status _ := "Unknown"

/-- Embedding of `deque(maxlen=cap).append`: when the deque is full the oldest entry is
evicted before the new one is appended. -/
def dequeAppend (cap : ℕ) (l : List α) (x : α) : List α :=
  if l.length < cap then l ++ [x] else l.tail ++ [x]

/-- Per-tick, per-target environment: the probe's subprocess outcome and
the `datetime.now()` timestamp string taken for that target. -/
def TickInput : Type := String → RunResult × String

/-- One iteration of the `for name, ip in WIFI_TARGETS.items()` body of
`monitor_loop` (lines 102–109): run the probe, derive the status string,
replace the target's record fields, append the history sample, and set
`last_status`. -/
def tickTarget (name ip : String) (pr : RunResult) (ts : String)
    (st : SysState) : SysState :=
  let ol := ping_latency pr
  let status := if ol.1 then "UP" else "DOWN"
  { status_store := fun k =>
      if k = name then
        some { ip := ip, status := status, last := some ts, latency := ol.2 }
      else st.status_store k,
    history := fun k =>
      if k = name then
        dequeAppend HISTORY_LENGTH (st.history k)
          (ts, if ol.1 then 1 else 0, ol.2)
      else st.history k,
    last_status := fun k => if k = name then status else st.last_status k }

/-- One full scheduler tick: the body of the `while True` loop of
`monitor_loop` (lines 101–110), iterating over all configured targets. -/
def tick (inp : TickInput) (st : SysState) : SysState :=
  WIFI_TARGETS.foldl
    (fun s p => tickTarget p.1 p.2 (inp p.1).1 (inp p.1).2 s) st

/-- Running `monitor_loop` for a finite prefix: one `tick` per element of the
input list (the inter-tick `time.sleep` does not affect the state). -/
def runTicks (l : List TickInput) (st : SysState) : SysState :=
  l.foldl (fun s i => tick i s) st

/-- The history sample that a tick with environment `inp` writes for
target `T`. -/
def sampleOf (inp : TickInput) (T : String) : Sample :=
  ((inp T).2, if (ping_latency (inp T).1).1 then 1 else 0,
    (ping_latency (inp T).1).2)

/-- The shared module-level mutable containers of `wifi.py`. -/
inductive SharedVar where
  | status_store | history | last_status
deriving DecidableEq

/-- One statement that mutates or reads a shared container: which
container, its source line, and whether the statement executes inside a
`with lock:` block. -/
structure AccessSite where
  var : SharedVar
  line : ℕ
  underLock : Bool
deriving DecidableEq

/-- The mutation sites of `monitor_loop` (lines 106–109): the
`status_store[name].update(...)` call (line 107) and the
`history[name].append(...)` call (line 108) are inside `with lock:`
(line 106); the `last_status[name] = status` assignment (line 109) is
outside it. -/
def monitor_loop_writes : List AccessSite :=
  [{ var := .status_store, line := 107, underLock := true },
   { var := .history, line := 108, underLock := true },
   { var := .last_status, line := 109, underLock := false }]

/-- The shared-state read sites of the `/api/status` handler `api_status`
(lines 238–241): the `jsonify(status_store)` serialisation (line 241) runs
inside `with lock:` (line 240). -/
def api_status_reads : List AccessSite :=
  [{ var := .status_store, line := 241, underLock := true }]

/-- The configured target names, in configuration order. -/
def targetNames : List String :=
  WIFI_TARGETS.map Prod.fst

/-- The configured target names are pairwise distinct. -/
theorem targetNames_nodup : targetNames.Nodup := by decide

/-- A configured target name occurs exactly once among the pairs of
`WIFI_TARGETS`. -/
theorem countP_targets_eq_one (T : String) (hT : T ∈ targetNames) :
    WIFI_TARGETS.countP (fun p => p.1 == T) = 1 := by
  have h1 : WIFI_TARGETS.countP (fun p => p.1 == T) = targetNames.count T := by
    rw [targetNames, List.count, List.countP_map]
    rfl
  rw [h1]
  exact List.count_eq_one_of_mem targetNames_nodup hT

/-- Folding the per-target loop body over a pair list touches target `T`'s
history once per pair whose name is `T`, appending that tick's sample. -/
theorem foldl_history_iterate (inp : TickInput) (T : String) :
    ∀ (l : List (String × String)) (st : SysState),
      ((l.foldl (fun s p => tickTarget p.1 p.2 (inp p.1).1 (inp p.1).2 s)
          st).history T)
        = (fun h => dequeAppend HISTORY_LENGTH h (sampleOf inp T))^[
            l.countP (fun p => p.1 == T)] (st.history T) := by
  intro l
  induction l with
  | nil => intro st; rfl
  | cons p l ih =>
    intro st
    rw [List.foldl_cons, List.countP_cons, ih]
    by_cases hp : p.1 = T
    · subst hp
      rw [if_pos (by simp), Function.iterate_succ_apply]
      simp [tickTarget, sampleOf]
    · rw [if_neg (by simpa using hp)]
      have hframe :
          (tickTarget p.1 p.2 (inp p.1).1 (inp p.1).2 st).history T =
            st.history T := by
        simp only [tickTarget]
        exact if_neg fun h => hp h.symm
      rw [hframe, Nat.add_zero]

/-- A scheduler tick appends exactly one sample (that tick's probe result)
to each configured target's history deque. -/
theorem tick_history (inp : TickInput) (st : SysState) (T : String)
    (hT : T ∈ targetNames) :
    (tick inp st).history T =
      dequeAppend HISTORY_LENGTH (st.history T) (sampleOf inp T) := by
  rw [tick, foldl_history_iterate, countP_targets_eq_one T hT,
    Function.iterate_one]

/-- Running the scheduler for a list of tick environments folds the deque
append over the chronological sample sequence of target `T`. -/
theorem runTicks_history (inputs : List TickInput) (T : String)
    (hT : T ∈ targetNames) :
    ∀ st : SysState,
      (runTicks inputs st).history T =
        (inputs.map fun i => sampleOf i T).foldl
          (dequeAppend HISTORY_LENGTH) (st.history T) := by
  induction inputs with
  | nil => intro st; rfl
  | cons i is ih =>
    intro st
    have h1 : runTicks (i :: is) st = runTicks is (tick i st) := rfl
    rw [h1, ih (tick i st), List.map_cons, List.foldl_cons,
      tick_history i st T hT]

/-- Folding bounded-deque appends over a sample sequence keeps exactly the
last `cap` entries, in order: the result is the chronological suffix of
the full sequence. -/
theorem dequeAppend_foldl {α : Type} (cap : ℕ) (hcap : 0 < cap) :
    ∀ (l start : List α), start.length ≤ cap →
      l.foldl (dequeAppend cap) start =
        (start ++ l).drop (start.length + l.length - cap) := by
  intro l
  induction l with
  | nil =>
    intro start hs
    simp only [List.foldl_nil, List.append_nil, List.length_nil, Nat.add_zero]
    rw [show start.length - cap = 0 from by omega, List.drop_zero]
  | cons x xs ih =>
    intro start hs
    rw [List.foldl_cons]
    by_cases hlt : start.length < cap
    · rw [show dequeAppend cap start x = start ++ [x] from if_pos hlt]
      rw [ih (start ++ [x]) (by
        simp only [List.length_append, List.length_cons, List.length_nil]
        omega)]
      simp only [List.append_assoc, List.singleton_append, List.length_append,
        List.length_cons, List.length_nil]
      congr 1
      omega
    · rcases start with _ | ⟨s, ss⟩
      · exfalso
        simp only [List.length_nil] at hlt
        omega
      · have hss : ss.length + 1 = cap := by
          simp only [List.length_cons] at hs hlt
          omega
        rw [show dequeAppend cap (s :: ss) x = ss ++ [x] from if_neg hlt]
        rw [ih (ss ++ [x]) (by
          simp only [List.length_append, List.length_cons, List.length_nil]
          omega)]
        rw [show (ss ++ [x]).length + xs.length - cap = xs.length from by
          simp only [List.length_append, List.length_cons, List.length_nil]
          omega]
        rw [show (s :: ss).length + (x :: xs).length - cap = xs.length + 1 from by
          simp only [List.length_cons]
          omega]
        rw [show ((s :: ss) ++ x :: xs) = s :: (ss ++ x :: xs) from rfl]
        rw [List.drop_succ_cons]
        rw [show ((ss ++ [x]) ++ xs) = ss ++ x :: xs from by simp]

/-- C1: after any `N` scheduler ticks, a configured target's history
buffer holds exactly the last `min(N, 300)` samples of the chronological
sample sequence, in insertion order with no gaps (it is the suffix of
the full sequence obtained by dropping the `N − 300` oldest samples), and
its length is `min(N, 300)` — the capacity is never exceeded and each
append when full evicts exactly the oldest entry. -/
theorem C1_history_bounded_fifo (inputs : List TickInput) (T : String)
    (hT : T ∈ targetNames) :
    (runTicks inputs initState).history T =
      (inputs.map fun i => sampleOf i T).drop
        (inputs.length - HISTORY_LENGTH) ∧
    ((runTicks inputs initState).history T).length =
      min inputs.length HISTORY_LENGTH := by
  have h1 := runTicks_history inputs T hT initState
  have h2 : initState.history T = [] := rfl
  rw [h2] at h1
  have h3 := dequeAppend_foldl HISTORY_LENGTH (by decide)
      (inputs.map fun i => sampleOf i T) [] (by simp)
  simp only [List.nil_append, List.length_nil, Nat.zero_add,
    List.length_map] at h3
  refine ⟨by rw [h1, h3], ?_⟩
  rw [h1, h3, List.length_drop, List.length_map]
  omega

/-- Witness for C1 on a single tick whose probes all raise. -/
theorem C1_witness :
    "Shakti_2.4GHz" ∈ targetNames ∧
    ((runTicks [fun _ => (RunResult.raises, "t0")] initState).history
          "Shakti_2.4GHz" =
        (([fun _ => (RunResult.raises, "t0")] : List TickInput).map
            fun i => sampleOf i "Shakti_2.4GHz").drop
          (([fun _ => (RunResult.raises, "t0")] : List TickInput).length -
            HISTORY_LENGTH) ∧
      ((runTicks [fun _ => (RunResult.raises, "t0")] initState).history
            "Shakti_2.4GHz").length =
        min ([fun _ => (RunResult.raises, "t0")] : List TickInput).length
          HISTORY_LENGTH) :=
  ⟨by decide,
   C1_history_bounded_fifo [fun _ => (RunResult.raises, "t0")]
     "Shakti_2.4GHz" (by decide)⟩

/-- Numeric order of the health tiers: Weak < Fair < Good < Excellent
(any label outside the four tiers ranks lowest). -/
def healthRank (label : String) : ℕ :=
  if label = "Excellent" then 3
  else if label = "Good" then 2
  else if label = "Fair" then 1
  else 0

/-- On a zero exit code `ping_latency` reports reachable, with the latency
given by the first regex group that both matches and parses as a float. -/
theorem ping_latency_success (so se : String) :
    ping_latency (.completed 0 so se) =
      (true, ((searchPing (so ++ se)).or (searchAvg (so ++ se))).bind pyFloat) := by
  rcases hsp : searchPing (so ++ se) with _ | g
  · rcases hsa : searchAvg (so ++ se) with _ | g2
    · simp [ping_latency, hsp, hsa]
    · rcases hpf : pyFloat g2 with _ | v <;> simp [ping_latency, hsp, hsa, hpf]
  · rcases hpf : pyFloat g with _ | v <;> simp [ping_latency, hsp, hpf]

/-- C2: `compute_health` is a pure function of the download figure with
inclusive lower bounds per tier: `d ≥ 100` is Excellent, `50 ≤ d < 100` is
Good, `10 ≤ d < 50` is Fair, `d < 10` (including 0 and negatives) is Weak,
and a null download is Unknown; ties at an exact boundary resolve to the
higher tier. -/
theorem C2_compute_health_tiers (d : ℚ) :
    (compute_health none).1 = "Unknown" ∧
    (100 ≤ d → (compute_health (some d)).1 = "Excellent") ∧
    (50 ≤ d → d < 100 → (compute_health (some d)).1 = "Good") ∧
    (10 ≤ d → d < 50 → (compute_health (some d)).1 = "Fair") ∧
    (d < 10 → (compute_health (some d)).1 = "Weak") := by
  refine ⟨rfl, fun h => ?_, fun h1 h2 => ?_, fun h1 h2 => ?_, fun h => ?_⟩ <;>
    simp only [compute_health] <;> split_ifs <;> first | rfl | linarith

/-- Witness for C2 at the boundary inputs 100 and 99. -/
theorem C2_witness :
    (100 : ℚ) ≤ 100 ∧ (compute_health (some 100)).1 = "Excellent" ∧
    (50 : ℚ) ≤ 99 ∧ (99 : ℚ) < 100 ∧ (compute_health (some 99)).1 = "Good" :=
  ⟨by norm_num, (C2_compute_health_tiers 100).2.1 (by norm_num), by norm_num,
   by norm_num, (C2_compute_health_tiers 99).2.2.1 (by norm_num) (by norm_num)⟩

/-- C8: `compute_health` is monotonic non-decreasing in the download
figure under the tier order Weak < Fair < Good < Excellent. -/
theorem C8_compute_health_mono (x y : ℚ) (hxy : x ≤ y) :
    healthRank (compute_health (some x)).1 ≤
      healthRank (compute_health (some y)).1 := by
  simp only [compute_health]
  split_ifs <;> simp [healthRank] <;> linarith

/-- Witness for C8 at 5 ≤ 100. -/
theorem C8_witness :
    (5 : ℚ) ≤ 100 ∧
    healthRank (compute_health (some 5)).1 ≤
      healthRank (compute_health (some 100)).1 :=
  ⟨by norm_num, C8_compute_health_mono 5 100 (by norm_num)⟩

/-- C4: an exception from the subprocess (`ping` binary missing, timeout,
anything unexpected) and any nonzero exit code of the ping tool both make
`ping_latency` return exactly `(False, None)`; the function never
propagates an error (it is total on every outcome). -/
theorem C4_probe_errors (rc : ℤ) (so se : String) (hrc : rc ≠ 0) :
    ping_latency .raises = (false, none) ∧
    ping_latency (.completed rc so se) = (false, none) :=
  ⟨rfl, by simp [ping_latency, hrc]⟩

/-- Witness for C4 at exit code 1. -/
theorem C4_witness :
    (1 : ℤ) ≠ 0 ∧
    ping_latency (.completed 1 "ping: unknown host" "") = (false, none) :=
  ⟨by decide, (C4_probe_errors 1 "ping: unknown host" "" (by decide)).2⟩

/-- C6: when the external speedtest routine fails, the `/api/speedtest`
payload has all three numeric fields null and health `"Unknown"`, and the
handler still returns a payload (the failure is recovered inside
`run_speedtest`, never propagated). -/
theorem C6_speedtest_failure (os : OsKind) (call : CallResult) (now : String) :
    (api_speedtest os call .fails now).download_mbps = none ∧
    (api_speedtest os call .fails now).upload_mbps = none ∧
    (api_speedtest os call .fails now).ping_ms = none ∧
    (api_speedtest os call .fails now).health = "Unknown" :=
  ⟨rfl, rfl, rfl, rfl⟩

/-- C9: an SSID shell-out that raises, an unsupported platform, and
tool output in which the SSID pattern does not match all yield the
sentinel `"Unknown"`; `get_current_ssid` is total, so it can never fail
the enclosing `/api/speedtest` handler. -/
theorem C9_ssid_failures (os : OsKind) (call : CallResult) (out : String)
    (hw : windowsSsidSearch out = none) (hd : darwinSsidSearch out = none) :
    get_current_ssid os .raises = "Unknown" ∧
    get_current_ssid .other call = "Unknown" ∧
    get_current_ssid .windows (.output out) = "Unknown" ∧
    get_current_ssid .darwin (.output out) = "Unknown" := by
  refine ⟨rfl, ?_, ?_, ?_⟩
  · cases call <;> rfl
  · simp [get_current_ssid, hw]
  · simp [get_current_ssid, hd]

/-- Witness for C9 on output with no SSID line. -/
theorem C9_witness :
    windowsSsidSearch "wlan0  no wireless extensions." = none ∧
    darwinSsidSearch "wlan0  no wireless extensions." = none ∧
    get_current_ssid .windows (.output "wlan0  no wireless extensions.") =
      "Unknown" :=
  ⟨by decide, by decide,
   (C9_ssid_failures .windows .raises "wlan0  no wireless extensions."
      (by decide) (by decide)).2.2.1⟩

/-- C3 counterexample: not every mutation of shared per-target state in
`monitor_loop` is under the lock — the `last_status[name] = status`
assignment at line 109 executes outside the `with lock:` block, so the
claim as stated is false. -/
theorem C3_counterexample :
    ({ var := .last_status, line := 109, underLock := false } : AccessSite)
        ∈ monitor_loop_writes ∧
    ¬ (∀ w ∈ monitor_loop_writes, w.underLock = true) := by decide

/-- C3 amended: every mutation of the status-record registry
(`status_store`) and of the history buffers in `monitor_loop` is inside
the single `with lock:` block, and the `/api/status` reader serialises its
snapshot while holding that same lock; only the write to the never-read
`last_status` map sits outside the lock. -/
theorem C3_locked_registry_and_history :
    (∀ w ∈ monitor_loop_writes,
      (w.var = .status_store ∨ w.var = .history) → w.underLock = true) ∧
    (∀ r ∈ api_status_reads, r.underLock = true) := by decide

/-- Witness for the amended C3 at the `status_store` write site. -/
theorem C3_witness :
    ({ var := .status_store, line := 107, underLock := true } :
      AccessSite).underLock = true :=
  C3_locked_registry_and_history.1
    { var := .status_store, line := 107, underLock := true } (by decide)
    (Or.inl rfl)

/-- C5: on a zero exit code, a `time=23.4ms`-style figure in the output
yields `(True, 23.4)`, a Windows `Average = <num>ms` trailer (consulted
only when the first pattern fails) yields its figure, and successful
output with no parseable figure yields `(True, None)` — the reachability
flag is `True` in every zero-exit case, never conflated with failure. -/
theorem C5_probe_success_parsing (so se g : String) (q : ℚ) :
    (ping_latency (.completed 0 so se)).1 = true ∧
    (searchPing (so ++ se) = some g → pyFloat g = some q →
      ping_latency (.completed 0 so se) = (true, some q)) ∧
    (searchPing (so ++ se) = none → searchAvg (so ++ se) = some g →
      pyFloat g = some q → ping_latency (.completed 0 so se) = (true, some q)) ∧
    (searchPing (so ++ se) = none → searchAvg (so ++ se) = none →
      ping_latency (.completed 0 so se) = (true, none)) := by
  refine ⟨?_, fun h1 h2 => ?_, fun h1 h2 h3 => ?_, fun h1 h2 => ?_⟩ <;>
    simp [ping_latency_success, *]

/-- Evaluation of the embedded Python `float` at the group `"23.4"`. -/
theorem pyFloat_234 : pyFloat "23.4" = some (117 / 5) := by
  have hdata : "23.4".data = ['2', '3', '.', '4'] := by decide
  simp only [pyFloat, hdata]
  rw [if_pos (by decide)]
  rw [show List.takeWhile Char.isDigit ['2', '3', '.', '4'] = ['2', '3'] from
        by decide,
      show List.dropWhile Char.isDigit ['2', '3', '.', '4'] = ['.', '4'] from
        by decide]
  rw [show List.drop 1 (['.', '4'] : List Char) = ['4'] from by decide,
      show digitsVal ['2', '3'] = 23 from by decide,
      show digitsVal ['4'] = 4 from by decide]
  norm_num

/-- Witness for C5 on Linux-style ping output carrying `time=23.4 ms`. -/
theorem C5_witness :
    searchPing
        ("64 bytes from 192.168.1.1: icmp_seq=1 ttl=64 time=23.4 ms" ++ "") =
      some "23.4" ∧
    pyFloat "23.4" = some (117 / 5) ∧
    ping_latency
        (.completed 0 "64 bytes from 192.168.1.1: icmp_seq=1 ttl=64 time=23.4 ms" "") =
      (true, some (117 / 5)) :=
  ⟨by decide, pyFloat_234,
   (C5_probe_success_parsing
      "64 bytes from 192.168.1.1: icmp_seq=1 ttl=64 time=23.4 ms" "" "23.4"
      (117 / 5)).2.1 (by decide) pyFloat_234⟩

/-- Whenever `ping_latency` reports unreachable, its latency is null: every
failure branch of the function returns `(False, None)`. -/
theorem ping_latency_false_none (pr : RunResult)
    (h : (ping_latency pr).1 = false) : (ping_latency pr).2 = none := by
  rcases pr with _ | ⟨rc, so, se⟩
  · rfl
  · by_cases hrc : rc = 0
    · subst hrc
      rw [ping_latency_success] at h
      simp at h
    · simp [ping_latency, hrc]

/-- The record invariant of C7: a status other than `"UP"` comes with a
null latency field. -/
def LatencyInv (st : SysState) : Prop :=
  ∀ n r, st.status_store n = some r → r.status ≠ "UP" → r.latency = none

/-- One loop-body iteration preserves the latency invariant. -/
theorem tickTarget_latencyInv (name ip : String) (pr : RunResult)
    (ts : String) (st : SysState) (h : LatencyInv st) :
    LatencyInv (tickTarget name ip pr ts st) := by
  intro n r hr hs
  simp only [tickTarget] at hr
  by_cases hn : n = name
  · rw [if_pos hn] at hr
    have hrec := Option.some.inj hr
    subst hrec
    cases hb : (ping_latency pr).1
    · simpa using ping_latency_false_none pr hb
    · exfalso
      apply hs
      simp [hb]
  · rw [if_neg hn] at hr
    exact h n r hr hs

/-- The per-target fold preserves the latency invariant. -/
theorem foldl_latencyInv (inp : TickInput) :
    ∀ (l : List (String × String)) (st : SysState), LatencyInv st →
      LatencyInv (l.foldl
        (fun s p => tickTarget p.1 p.2 (inp p.1).1 (inp p.1).2 s) st) := by
  intro l
  induction l with
  | nil => intro st h; exact h
  | cons p l ih =>
    intro st h
    exact ih _ (tickTarget_latencyInv p.1 p.2 (inp p.1).1 (inp p.1).2 st h)

/-- Any number of scheduler ticks preserves the latency invariant. -/
theorem runTicks_latencyInv :
    ∀ (inputs : List TickInput) (st : SysState), LatencyInv st →
      LatencyInv (runTicks inputs st) := by
  intro inputs
  induction inputs with
  | nil => intro st h; exact h
  | cons i is ih =>
    intro st h
    exact ih _ (foldl_latencyInv i WIFI_TARGETS st h)

/-- The startup state satisfies the latency invariant: every record starts
as `Unknown` with null latency. -/
theorem initState_latencyInv : LatencyInv initState := by
  intro n r hr _
  simp only [initState] at hr
  rcases hl : WIFI_TARGETS.lookup n with _ | ip
  · rw [hl] at hr
    simp at hr
  · rw [hl] at hr
    have := Option.some.inj hr
    rw [← this]

/-- C7: after any number of scheduler ticks, every target record whose
status is not `"UP"` (so `"DOWN"` or `"Unknown"`) has a null latency
field; contrapositively a non-null latency implies status `"UP"`. -/
theorem C7_non_up_latency_null (inputs : List TickInput) (n : String)
    (r : StatusRecord)
    (h : (runTicks inputs initState).status_store n = some r)
    (hs : r.status ≠ "UP") : r.latency = none :=
  runTicks_latencyInv inputs initState initState_latencyInv n r h hs

/-- Witness for C7 at the startup record of the first target. -/
theorem C7_witness :
    (runTicks [] initState).status_store "Shakti_2.4GHz" =
      some { ip := "192.168.1.1", status := "Unknown", last := none,
             latency := none } ∧
    ({ ip := "192.168.1.1", status := "Unknown", last := none,
       latency := none } : StatusRecord).latency = none :=
  ⟨by decide,
   C7_non_up_latency_null [] "Shakti_2.4GHz"
     { ip := "192.168.1.1", status := "Unknown", last := none,
       latency := none } (by decide) (by decide)⟩

/-- An association-list lookup succeeds exactly on the keys. -/
theorem lookup_isSome_iff :
    ∀ (l : List (String × String)) (n : String),
      (l.lookup n).isSome = true ↔ n ∈ l.map Prod.fst := by
  intro l n
  induction l with
  | nil => simp [List.lookup]
  | cons p l ih =>
    obtain ⟨k, v⟩ := p
    simp only [List.lookup, List.map_cons, List.mem_cons]
    cases hk : n == k
    · have hne : ¬ n = k := by
        intro he
        subst he
        simp at hk
      simp [ih, hne]
    · have he : n = k := eq_of_beq hk
      simp [he]

/-- With pairwise-distinct keys, lookup returns the value paired with the
key. -/
theorem lookup_eq_of_mem :
    ∀ (l : List (String × String)), (l.map Prod.fst).Nodup →
      ∀ n ip, (n, ip) ∈ l → l.lookup n = some ip := by
  intro l
  induction l with
  | nil =>
    intro _ n ip h
    simp at h
  | cons p l ih =>
    intro hnd n ip hmem
    obtain ⟨k, v⟩ := p
    simp only [List.map_cons, List.nodup_cons] at hnd
    rcases List.mem_cons.mp hmem with he | hl
    · injection he with h1 h2
      subst h1
      subst h2
      simp [List.lookup]
    · have hn : n ∈ l.map Prod.fst := List.mem_map_of_mem Prod.fst hl
      have hkn : ¬ n = k := fun he => hnd.1 (he ▸ hn)
      have hbeq : (n == k) = false := by
        simp [hkn]
      simp only [List.lookup, hbeq]
      exact ih hnd.2 n ip hl

/-- Second components are determined by first components in a list with
pairwise-distinct keys. -/
theorem snd_unique_of_nodup (l : List (String × String))
    (hnd : (l.map Prod.fst).Nodup) {n b c : String}
    (h1 : (n, b) ∈ l) (h2 : (n, c) ∈ l) : b = c := by
  have e1 := lookup_eq_of_mem l hnd n b h1
  have e2 := lookup_eq_of_mem l hnd n c h2
  rw [e1] at e2
  exact Option.some.inj e2

/-- The key-set invariant of C10: the registry has exactly the configured
target names as keys. -/
def KeyInv (st : SysState) : Prop :=
  ∀ n, (st.status_store n).isSome = true ↔ n ∈ targetNames

/-- The ip invariant of C10: every record's ip field is the configured
address of its target. -/
def IpInv (st : SysState) : Prop :=
  ∀ n ip r, (n, ip) ∈ WIFI_TARGETS → st.status_store n = some r → r.ip = ip

/-- One loop-body iteration for a configured target preserves the key-set
invariant. -/
theorem tickTarget_keyInv (name ip : String) (pr : RunResult) (ts : String)
    (st : SysState) (hname : name ∈ targetNames) (h : KeyInv st) :
    KeyInv (tickTarget name ip pr ts st) := by
  intro n
  simp only [tickTarget]
  by_cases hn : n = name
  · rw [if_pos hn]
    simp [hn, hname]
  · rw [if_neg hn]
    exact h n

/-- One loop-body iteration for a configured pair preserves the ip
invariant. -/
theorem tickTarget_ipInv (p : String × String) (hp : p ∈ WIFI_TARGETS)
    (pr : RunResult) (ts : String) (st : SysState) (h : IpInv st) :
    IpInv (tickTarget p.1 p.2 pr ts st) := by
  intro n ip r hmem hr
  simp only [tickTarget] at hr
  by_cases hn : n = p.1
  · rw [if_pos hn] at hr
    have hrec := Option.some.inj hr
    subst hrec
    subst hn
    have hp2 : (p.1, p.2) ∈ WIFI_TARGETS := by
      rw [Prod.mk.eta]
      exact hp
    exact snd_unique_of_nodup WIFI_TARGETS targetNames_nodup hp2 hmem
  · rw [if_neg hn] at hr
    exact h n ip r hmem hr

/-- The per-target fold over configured pairs preserves both registry
invariants. -/
theorem foldl_registry_invs (inp : TickInput) :
    ∀ (l : List (String × String)), (∀ p ∈ l, p ∈ WIFI_TARGETS) →
      ∀ st : SysState, KeyInv st → IpInv st →
        KeyInv (l.foldl
          (fun s p => tickTarget p.1 p.2 (inp p.1).1 (inp p.1).2 s) st) ∧
        IpInv (l.foldl
          (fun s p => tickTarget p.1 p.2 (inp p.1).1 (inp p.1).2 s) st) := by
  intro l
  induction l with
  | nil => intro _ st hk hi; exact ⟨hk, hi⟩
  | cons p l ih =>
    intro hmem st hk hi
    have hp : p ∈ WIFI_TARGETS := hmem p (List.mem_cons_self p l)
    have hpn : p.1 ∈ targetNames := List.mem_map_of_mem Prod.fst hp
    exact ih (fun q hq => hmem q (List.mem_cons_of_mem p hq)) _
      (tickTarget_keyInv p.1 p.2 (inp p.1).1 (inp p.1).2 st hpn hk)
      (tickTarget_ipInv p hp (inp p.1).1 (inp p.1).2 st hi)

/-- Any number of scheduler ticks preserves both registry invariants. -/
theorem runTicks_registry_invs :
    ∀ (inputs : List TickInput) (st : SysState), KeyInv st → IpInv st →
      KeyInv (runTicks inputs st) ∧ IpInv (runTicks inputs st) := by
  intro inputs
  induction inputs with
  | nil => intro st hk hi; exact ⟨hk, hi⟩
  | cons i is ih =>
    intro st hk hi
    have hstep := foldl_registry_invs i WIFI_TARGETS (fun p hp => hp) st hk hi
    exact ih _ hstep.1 hstep.2

/-- The startup state satisfies both registry invariants. -/
theorem initState_registry_invs : KeyInv initState ∧ IpInv initState := by
  constructor
  · intro n
    have hmap : ∀ (o : Option String) (f : String → StatusRecord),
        (o.map f).isSome = o.isSome := by
      intro o f
      cases o <;> rfl
    simp only [initState]
    rw [hmap]
    exact lookup_isSome_iff WIFI_TARGETS n
  · intro n ip r hmem hr
    simp only [initState] at hr
    rw [lookup_eq_of_mem WIFI_TARGETS targetNames_nodup n ip hmem] at hr
    have := Option.some.inj hr
    rw [← this]

/-- C10: after any number of ticks the registry's key set is exactly the
configured target set and every record's ip field equals the configured
address of its target; moreover a loop-body iteration for one target
leaves every other target's record, history and last-status entry
untouched (it changes only the probed target's entries). -/
theorem C10_registry_frame :
    (∀ (inputs : List TickInput) (n : String),
      ((runTicks inputs initState).status_store n).isSome = true ↔
        n ∈ targetNames) ∧
    (∀ (inputs : List TickInput) (n ip : String) (r : StatusRecord),
      (n, ip) ∈ WIFI_TARGETS →
      (runTicks inputs initState).status_store n = some r → r.ip = ip) ∧
    (∀ (name ip : String) (pr : RunResult) (ts : String) (st : SysState)
        (m : String), m ≠ name →
      (tickTarget name ip pr ts st).status_store m = st.status_store m ∧
      (tickTarget name ip pr ts st).history m = st.history m ∧
      (tickTarget name ip pr ts st).last_status m = st.last_status m) := by
  refine ⟨?_, ?_, ?_⟩
  · intro inputs n
    exact (runTicks_registry_invs inputs initState
      initState_registry_invs.1 initState_registry_invs.2).1 n
  · intro inputs n ip r hmem hr
    exact (runTicks_registry_invs inputs initState
      initState_registry_invs.1 initState_registry_invs.2).2 n ip r hmem hr
  · intro name ip pr ts st m hm
    refine ⟨?_, ?_, ?_⟩ <;> simp only [tickTarget] <;> exact if_neg hm

/-- Witness for C10: key membership, the configured ip of the first
target at startup, and the frame of a tick on a different target. -/
theorem C10_witness :
    (((runTicks [] initState).status_store "Shakti_2.4GHz").isSome = true ↔
      "Shakti_2.4GHz" ∈ targetNames) ∧
    ({ ip := "192.168.1.1", status := "Unknown", last := none,
       latency := none } : StatusRecord).ip = "192.168.1.1" ∧
    (tickTarget "SHAKTI_5GHz" "192.168.1.2" .raises "t0"
        initState).status_store "Shakti_2.4GHz" =
      initState.status_store "Shakti_2.4GHz" :=
  ⟨C10_registry_frame.1 [] "Shakti_2.4GHz",
   C10_registry_frame.2.1 [] "Shakti_2.4GHz" "192.168.1.1"
     { ip := "192.168.1.1", status := "Unknown", last := none,
       latency := none } (by decide) (by decide),
   (C10_registry_frame.2.2 "SHAKTI_5GHz" "192.168.1.2" .raises "t0"
     initState "Shakti_2.4GHz" (by decide)).1⟩

end Wifi
